import Mathlib

/-!
Shallow embedding of the task-list logic of the unlock-your-drive
application: the sub-task completion aggregator and study-time formatter
of `src/components/DailyTaskCard.tsx`, and the mission CRUD, delete
selection and time-remaining logic of `src/components/TaskManager.tsx`.
Machine numbers of the source are JavaScript numbers used only at integer
values; they are embedded as `Nat`/`Int`.
-/

namespace UnlockDrive

/-- A study log entry: `{ duration }`, a non-negative integer number of
seconds. -/
structure StudyLog where
  duration : Nat
  deriving DecidableEq, Repr

/-- One derived sub-task of a daily task:
`{ text, completed, studyLogs }` (`DailyTaskCard.tsx`). -/
structure SubTask where
  text : String
  completed : Bool
  studyLogs : List StudyLog
  deriving DecidableEq, Repr

/-- A daily task record, an element of `roadmap.dailyTasks`
(`DailyTaskCard.tsx`): `day`, the raw `task` string whose `;`-separated
segments are the sub-task descriptions, the aggregate `completed` flag and
the derived `subTasks`.  A record whose `subTasks` field is absent in
JavaScript is embedded with `subTasks = []`, which the optional-chaining
reads `task.subTasks?.[i]` make indistinguishable from an empty array. -/
structure DailyTask where
  day : Int
  task : String
  completed : Bool
  subTasks : List SubTask
  deriving DecidableEq, Repr

/-- JavaScript `s.trim()`: strip leading and trailing whitespace. -/
def trimString (s : String) : String :=
  String.mk
    (((s.data.dropWhile Char.isWhitespace).reverse.dropWhile
        Char.isWhitespace).reverse)

/-- Worker for `splitOnChar`: walk the character list, cutting a new
segment at each separator; `acc` holds the current segment reversed. -/
def splitOnCharAux (sep : Char) : List Char → List Char → List String
  | [], acc => [String.mk acc.reverse]
  | ch :: rest, acc =>
    if ch = sep then String.mk acc.reverse :: splitOnCharAux sep rest []
    else splitOnCharAux sep rest (ch :: acc)

/-- JavaScript `s.split(sep)` for a one-character separator: always at
least one (possibly empty) segment, e.g. `"".split(';') = [""]` and
`";".split(';') = ["", ""]`. -/
def splitOnChar (sep : Char) (s : String) : List String :=
  splitOnCharAux sep s.data []

/-- `task.split(';').map(s => s.trim())` — the derived sub-task texts
(`DailyTaskCard.tsx` lines 30–31 and 61). -/
def splitSegments (s : String) : List String :=
  (splitOnChar ';' s).map trimString

/-- The rebuilt sub-task list of `handleSubTaskCompletion`
(`DailyTaskCard.tsx` lines 30–34), as a function of the task's raw string
and its previous `subTasks`: split the string on `;`, trim each segment,
and give position `i` the new `completed` value when
`i === subTaskIndex`, otherwise `task.subTasks?.[i]?.completed ?? false`,
keeping `task.subTasks?.[i]?.studyLogs ?? []`. -/
def rebuildSubTasks (taskStr : String) (old : List SubTask)
    (subTaskIndex : Nat) (completed : Bool) : List SubTask :=
  (splitSegments taskStr).enum.map fun si =>
    { text := si.2
      completed := if si.1 = subTaskIndex then completed
                   else ((old.get? si.1).map SubTask.completed).getD false
      studyLogs := ((old.get? si.1).map SubTask.studyLogs).getD [] }

/-- The per-task body of the `map` in `handleSubTaskCompletion`
(`DailyTaskCard.tsx` lines 27–43): a task whose `day` matches gets the
rebuilt `subTasks` and the recomputed `completed` flag
(`subTasks.every(st => st.completed)`); any other task passes through. -/
def applyTaskCompletion (day : Int) (subTaskIndex : Nat) (completed : Bool)
    (t : DailyTask) : DailyTask :=
  if t.day = day then
    let subTasks := rebuildSubTasks t.task t.subTasks subTaskIndex completed
    { t with subTasks := subTasks, completed := subTasks.all SubTask.completed }
  else t

/-- The `updatedTasks` list produced by `handleSubTaskCompletion`
(`DailyTaskCard.tsx` lines 27–43). -/
def applyCompletionList (tasks : List DailyTask) (day : Int)
    (subTaskIndex : Nat) (completed : Bool) : List DailyTask :=
  tasks.map (applyTaskCompletion day subTaskIndex completed)

/-- The per-task effect of `handleSubTaskCompletion` on its
`justCompletedTask` accumulator (`DailyTaskCard.tsx` lines 26, 37–39): a
task whose `day` matches and whose rebuilt sub-tasks are all completed
while `task.completed` was previously false overwrites the accumulator
with the updated task; otherwise the accumulator is untouched. -/
def signalStep (day : Int) (subTaskIndex : Nat) (completed : Bool)
    (acc : Option DailyTask) (t : DailyTask) : Option DailyTask :=
  if t.day = day then
    if (rebuildSubTasks t.task t.subTasks subTaskIndex completed).all
         SubTask.completed && !t.completed then
      some { t with
             subTasks := rebuildSubTasks t.task t.subTasks subTaskIndex completed
             completed :=
               (rebuildSubTasks t.task t.subTasks subTaskIndex completed).all
                 SubTask.completed }
    else acc
  else acc

/-- The `justCompletedTask` value yielded to `onRoadmapUpdate` by
`handleSubTaskCompletion` (`DailyTaskCard.tsx` lines 26–44): the
accumulator starts at `null` and is driven through the task list in
order. -/
def justCompletedSignal (tasks : List DailyTask) (day : Int)
    (subTaskIndex : Nat) (completed : Bool) : Option DailyTask :=
  tasks.foldl (signalStep day subTaskIndex completed) none

/-- `handleSubTaskCompletion` as a pure transform
(`DailyTaskCard.tsx` lines 25–45): the pair passed to
`onRoadmapUpdate(updatedTasks, justCompletedTask)`. -/
def applyCompletion (tasks : List DailyTask) (day : Int)
    (subTaskIndex : Nat) (completed : Bool) :
    List DailyTask × Option DailyTask :=
  (applyCompletionList tasks day subTaskIndex completed,
   justCompletedSignal tasks day subTaskIndex completed)

/-- `formatStudyTime` (`DailyTaskCard.tsx` lines 47–58).  The JavaScript
argument `logs: StudyLog[] | undefined` is embedded as
`Option (List StudyLog)` with `none` for `undefined`; the guard
`!logs || logs.length === 0` rejects both.  Durations are non-negative
integers, so the sum, `Math.floor` divisions and `%` agree with `Nat`
arithmetic. -/
def formatStudyTime (logs : Option (List StudyLog)) : Option String :=
  match logs with
  | none => none
  | some l =>
    if l.length = 0 then none
    else
      let totalSeconds := l.foldl (fun acc log => acc + log.duration) 0
      if totalSeconds = 0 then none
      else
        let hours := totalSeconds / 3600
        let minutes := (totalSeconds % 3600) / 60
        let seconds := totalSeconds % 60
        if hours > 0 then some (toString hours ++ "h " ++ toString minutes ++ "m logged")
        else if minutes > 0 then some (toString minutes ++ "m " ++ toString seconds ++ "s logged")
        else some (toString seconds ++ "s logged")

/-- A JavaScript `Date` split into its local calendar day (a day index,
e.g. days since the epoch) and its millisecond of that day.  This is
exactly the granularity the `TaskManager.tsx` code manipulates:
`setHours(23, 59, 59, 999)` rewrites the millisecond of the day and
`setDate(getDate() + n)` moves the calendar day. -/
structure Date where
  day : Int
  ms : Nat
  deriving DecidableEq, Repr

/-- The millisecond timestamp `getTime()` of a `Date`. -/
def Date.toMillis (d : Date) : Int :=
  d.day * 86400000 + (d.ms : Int)

/-- `targetDateValue.setHours(23, 59, 59, 999)` (`TaskManager.tsx`
line 69): force the time-of-day to the last millisecond of the calendar
day. -/
def setEndOfDay (d : Date) : Date :=
  { d with ms := 86399999 }

/-- `targetDateValue.setDate(targetDateValue.getDate() + days)`
(`TaskManager.tsx` line 66): move forward by a number of calendar days. -/
def addDays (d : Date) (n : Int) : Date :=
  { d with day := d.day + n }

/-- The closed priority enumeration of `Task` (`TaskManager.tsx`
line 24). -/
inductive Priority where
  | low
  | medium
  | high
  | extreme
  deriving DecidableEq, Repr

/-- A mission record, the `Task` interface of `TaskManager.tsx`
lines 18–25. -/
structure Task where
  id : String
  title : String
  targetDate : Date
  startDate : Date
  category : String
  priority : Priority
  deriving DecidableEq, Repr

/-- The two values of the `deadlineType` toggle (`TaskManager.tsx`
line 45). -/
inductive DeadlineMode where
  | date
  | days
  deriving DecidableEq, Repr

/-- The form state read by `handleSubmit` (`TaskManager.tsx` lines 45–52):
`deadlineType`, the `formData` fields and `numberOfDays`.
`targetDate` embeds the `formData.targetDate` string together with the
`new Date(...)` parse applied to it on line 61: `none` stands for the
empty string (the only falsy string the guard on line 60 rejects), and
`some d` for a non-empty string parsing to the calendar date `d`.
`numberOfDays` embeds `parseInt(numberOfDays, 10)` from line 63: `none`
stands for `NaN` and `some n` for the parsed integer; the guard
`!days || days <= 0` on line 64 rejects `NaN` and every `n ≤ 0`
(`!0` being true, `n = 0` falls under `n ≤ 0` either way). -/
structure SubmitRequest where
  deadlineType : DeadlineMode
  title : String
  targetDate : Option Date
  category : String
  priority : Priority
  numberOfDays : Option Int
  deriving DecidableEq, Repr

/-- The target date computed by the validation section of `handleSubmit`
(`TaskManager.tsx` lines 57–67) before end-of-day normalization; `none`
when the submit returns early without mutating. -/
def resolveTargetDate (req : SubmitRequest) (now : Date) : Option Date :=
  match req.deadlineType with
  | .date => req.targetDate
  | .days =>
    match req.numberOfDays with
    | none => none
    | some n => if n ≤ 0 then none else some (addDays now n)

/-- `handleSubmit` as a pure transform (`TaskManager.tsx` lines 54–94):
given the current `tasks`, the `editingTask` state, the form request and
the current time, it returns `some updatedTasks` — the list passed to
`onTasksChange` — or `none` when validation returns early and no mutation
happens.  A fresh id is `Date.now().toString()` (line 72), embedded as
the decimal string of `now`'s millisecond timestamp. -/
def handleSubmit (tasks : List Task) (editingTask : Option Task)
    (req : SubmitRequest) (now : Date) : Option (List Task) :=
  match resolveTargetDate req now with
  | none => none
  | some tdv =>
    let targetDateValue := setEndOfDay tdv
    let taskData : Task :=
      { id := match editingTask with
              | some e => e.id
              | none => toString now.toMillis
        title := req.title
        targetDate := targetDateValue
        startDate := match editingTask with
                     | some e => e.startDate
                     | none => now
        category := if req.category = "" then "General" else req.category
        priority := req.priority }
    some (match editingTask with
          | some e => tasks.map fun t => if t.id = e.id then taskData else t
          | none => tasks ++ [taskData])

/-- `handleDelete` as a pure transform (`TaskManager.tsx` lines 108–116):
returns the filtered list passed to `onTasksChange` together with the
selection after the calls to `onSelectTask`; when neither branch of the
conditional fires, `onSelectTask` is not called and the selection stays
what it was. -/
def handleDelete (tasks : List Task) (taskId : String)
    (selectedTaskId : Option String) : List Task × Option String :=
  let updatedTasks := tasks.filter fun t => t.id ≠ taskId
  (updatedTasks,
   if selectedTaskId = some taskId ∧ updatedTasks.length > 0 then
     updatedTasks.head?.map Task.id
   else if updatedTasks.length = 0 then
     none
   else
     selectedTaskId)

/-- `Math.ceil (a / b)` for an integer `a` and positive integer `b`: the
exact ceiling of the rational quotient, via the floor of the negated
quotient. -/
def ceilDiv (a b : Int) : Int :=
  -((-a) / b)

/-- `getTimeLeft` (`TaskManager.tsx` lines 118–127), with `now` injected
as a parameter; both dates enter only through their millisecond
timestamps. -/
def getTimeLeft (targetDate : Date) (now : Date) : String :=
  let difference := targetDate.toMillis - now.toMillis
  let days := ceilDiv difference 86400000
  if days > 1 then toString days ++ " days left"
  else if days = 1 then "1 day left"
  else if days = 0 then "Today!"
  else toString days.natAbs ++ " days overdue"

/-! ### Helper lemmas about the sub-task rebuild -/

theorem length_rebuildSubTasks (s : String) (old : List SubTask)
    (idx : Nat) (c : Bool) :
    (rebuildSubTasks s old idx c).length = (splitSegments s).length := by
  simp [rebuildSubTasks, List.enum_length]

theorem get_rebuildSubTasks (s : String) (old : List SubTask)
    (idx : Nat) (c : Bool) (i : Nat) (h : i < (rebuildSubTasks s old idx c).length) :
    (rebuildSubTasks s old idx c).get ⟨i, h⟩ =
      { text := (splitSegments s).get
          ⟨i, by rwa [length_rebuildSubTasks] at h⟩
        completed := if i = idx then c
                     else ((old.get? i).map SubTask.completed).getD false
        studyLogs := ((old.get? i).map SubTask.studyLogs).getD [] } := by
  simp [rebuildSubTasks, List.get_eq_getElem, List.getElem_map, List.getElem_enum]

theorem get?_rebuildSubTasks (s : String) (old : List SubTask)
    (idx : Nat) (c : Bool) (i : Nat) (hi : i < (splitSegments s).length) :
    (rebuildSubTasks s old idx c).get? i =
      some { text := (splitSegments s).get ⟨i, hi⟩
             completed := if i = idx then c
                          else ((old.get? i).map SubTask.completed).getD false
             studyLogs := ((old.get? i).map SubTask.studyLogs).getD [] } := by
  rw [List.get?_eq_get (by rw [length_rebuildSubTasks]; exact hi),
      get_rebuildSubTasks]

theorem rebuildSubTasks_rebuildSubTasks (s : String) (old : List SubTask)
    (idx : Nat) (c : Bool) :
    rebuildSubTasks s (rebuildSubTasks s old idx c) idx c
      = rebuildSubTasks s old idx c := by
  apply List.ext_get (by rw [length_rebuildSubTasks, length_rebuildSubTasks])
  intro i h1 h2
  have hi : i < (splitSegments s).length := by
    rwa [length_rebuildSubTasks] at h2
  rw [get_rebuildSubTasks, get_rebuildSubTasks,
      get?_rebuildSubTasks s old idx c i hi]
  by_cases hidx : i = idx
  · simp [hidx]
  · simp [hidx]

theorem applyTaskCompletion_eq_pos {day : Int} {t : DailyTask}
    (idx : Nat) (c : Bool) (h : t.day = day) :
    applyTaskCompletion day idx c t =
      { t with subTasks := rebuildSubTasks t.task t.subTasks idx c
               completed :=
                 (rebuildSubTasks t.task t.subTasks idx c).all SubTask.completed } := by
  simp [applyTaskCompletion, h]

theorem applyTaskCompletion_eq_neg {day : Int} {t : DailyTask}
    (idx : Nat) (c : Bool) (h : ¬t.day = day) :
    applyTaskCompletion day idx c t = t := by
  simp [applyTaskCompletion, h]

theorem applyTaskCompletion_idem (day : Int) (idx : Nat) (c : Bool)
    (t : DailyTask) :
    applyTaskCompletion day idx c (applyTaskCompletion day idx c t)
      = applyTaskCompletion day idx c t := by
  by_cases h : t.day = day
  · rw [applyTaskCompletion_eq_pos idx c h]
    rw [applyTaskCompletion_eq_pos idx c (show
      (({ t with subTasks := rebuildSubTasks t.task t.subTasks idx c
                 completed :=
                   (rebuildSubTasks t.task t.subTasks idx c).all
                     SubTask.completed } : DailyTask)).day = day from h)]
    simp [rebuildSubTasks_rebuildSubTasks]
  · rw [applyTaskCompletion_eq_neg idx c h, applyTaskCompletion_eq_neg idx c h]

theorem signalStep_eq_neg {day : Int} {t : DailyTask} (idx : Nat) (c : Bool)
    (acc : Option DailyTask) (h : ¬t.day = day) :
    signalStep day idx c acc t = acc := by
  unfold signalStep
  rw [if_neg h]

theorem signalStep_eq_pos_true {day : Int} {t : DailyTask} (idx : Nat)
    (c : Bool) (acc : Option DailyTask) (h : t.day = day)
    (hcond : ((rebuildSubTasks t.task t.subTasks idx c).all SubTask.completed
                && !t.completed) = true) :
    signalStep day idx c acc t = some (applyTaskCompletion day idx c t) := by
  unfold signalStep
  rw [if_pos h, if_pos hcond, applyTaskCompletion_eq_pos idx c h]

theorem signalStep_eq_pos_false {day : Int} {t : DailyTask} (idx : Nat)
    (c : Bool) (acc : Option DailyTask) (h : t.day = day)
    (hcond : ¬((rebuildSubTasks t.task t.subTasks idx c).all SubTask.completed
                 && !t.completed) = true) :
    signalStep day idx c acc t = acc := by
  unfold signalStep
  rw [if_pos h, if_neg hcond]

theorem signalStep_applyTaskCompletion (day : Int) (idx : Nat) (c : Bool)
    (acc : Option DailyTask) (t : DailyTask) :
    signalStep day idx c acc (applyTaskCompletion day idx c t) = acc := by
  by_cases h : t.day = day
  · rw [applyTaskCompletion_eq_pos idx c h]
    apply signalStep_eq_pos_false idx c acc
    · exact h
    · simp [rebuildSubTasks_rebuildSubTasks]
  · rw [applyTaskCompletion_eq_neg idx c h]
    exact signalStep_eq_neg idx c acc h

theorem signalStep_some {day : Int} {idx : Nat} {c : Bool}
    {acc : Option DailyTask} {t u : DailyTask}
    (hstep : signalStep day idx c acc t = some u) :
    acc = some u ∨
      (t.day = day ∧ t.completed = false ∧
       (rebuildSubTasks t.task t.subTasks idx c).all SubTask.completed = true ∧
       u = applyTaskCompletion day idx c t) := by
  by_cases h : t.day = day
  · by_cases hcond :
      ((rebuildSubTasks t.task t.subTasks idx c).all SubTask.completed
         && !t.completed) = true
    · right
      have hall :
          (rebuildSubTasks t.task t.subTasks idx c).all SubTask.completed
            = true := (Bool.and_eq_true_iff.mp hcond).1
      have hnot : t.completed = false := by
        simpa using (Bool.and_eq_true_iff.mp hcond).2
      rw [signalStep_eq_pos_true idx c acc h hcond] at hstep
      exact ⟨h, hnot, hall, (Option.some_inj.mp hstep).symm⟩
    · left
      rwa [signalStep_eq_pos_false idx c acc h hcond] at hstep
  · left
    rwa [signalStep_eq_neg idx c acc h] at hstep

theorem justCompletedSignal_foldl_some (day : Int) (idx : Nat) (c : Bool) :
    ∀ (l : List DailyTask) (acc : Option DailyTask) (u : DailyTask),
      l.foldl (signalStep day idx c) acc = some u →
      acc = some u ∨
        (u.completed = true ∧
         ∃ t, t ∈ l ∧ t.day = day ∧ t.completed = false ∧
           u = applyTaskCompletion day idx c t) := by
  intro l
  induction l with
  | nil => intro acc u h; exact Or.inl h
  | cons t ts ih =>
    intro acc u h
    rcases ih (signalStep day idx c acc t) u h with h1 | ⟨hcompl, t', ht', hd, hc, hu⟩
    · rcases signalStep_some h1 with h2 | ⟨hd, hc, hall, hu⟩
      · exact Or.inl h2
      · refine Or.inr ⟨?_, t, List.mem_cons_self t ts, hd, hc, hu⟩
        rw [hu, applyTaskCompletion_eq_pos idx c hd]
        exact hall
    · exact Or.inr ⟨hcompl, t', List.mem_cons_of_mem t ht', hd, hc, hu⟩

theorem length_applyCompletionList (tasks : List DailyTask) (day : Int)
    (idx : Nat) (c : Bool) :
    (applyCompletionList tasks day idx c).length = tasks.length := by
  simp [applyCompletionList]

theorem get_applyCompletionList (tasks : List DailyTask) (day : Int)
    (idx : Nat) (c : Bool) (j : Nat)
    (hj : j < tasks.length) (hr : j < (applyCompletionList tasks day idx c).length) :
    (applyCompletionList tasks day idx c).get ⟨j, hr⟩
      = applyTaskCompletion day idx c (tasks.get ⟨j, hj⟩) := by
  simp [applyCompletionList, List.get_eq_getElem, List.getElem_map]

theorem applyCompletionList_no_match (tasks : List DailyTask) (day : Int)
    (idx : Nat) (c : Bool) (h : ∀ t ∈ tasks, t.day ≠ day) :
    applyCompletionList tasks day idx c = tasks := by
  induction tasks with
  | nil => rfl
  | cons t ts ih =>
    have ht : ¬t.day = day := h t (List.mem_cons_self t ts)
    calc applyCompletionList (t :: ts) day idx c
        = applyTaskCompletion day idx c t :: applyCompletionList ts day idx c := by
          simp [applyCompletionList]
      _ = t :: ts := by
          rw [applyTaskCompletion_eq_neg idx c ht,
              ih (fun x hx => h x (List.mem_cons_of_mem t hx))]

theorem foldl_signalStep_no_match (day : Int) (idx : Nat) (c : Bool) :
    ∀ (l : List DailyTask), (∀ t ∈ l, t.day ≠ day) →
      ∀ acc : Option DailyTask, l.foldl (signalStep day idx c) acc = acc := by
  intro l
  induction l with
  | nil => intro _ acc; rfl
  | cons t ts ih =>
    intro h acc
    rw [List.foldl_cons, signalStep_eq_neg idx c acc (h t (List.mem_cons_self t ts))]
    exact ih (fun x hx => h x (List.mem_cons_of_mem t hx)) acc

/-! ### The claims -/

/-- C1: for every roadmap list, `day`, `subTaskIndex` and boolean
`completed`, `applyCompletion` rebuilds the matching task's `subTasks` by
splitting its `task` string on `;` and trimming each segment, gives each
position its previous completed value (defaulting to false) except at
`subTaskIndex` which takes the new `completed` value, recomputes the
task's `completed` flag as the logical AND over all rebuilt sub-tasks,
and returns every task whose `day` does not match unchanged. -/
theorem applyCompletion_rebuild_spec (tasks : List DailyTask) (day : Int)
    (subTaskIndex : Nat) (completed : Bool) :
    (applyCompletion tasks day subTaskIndex completed).1.length = tasks.length ∧
    ∀ j (hj : j < tasks.length)
      (hr : j < (applyCompletion tasks day subTaskIndex completed).1.length)
      (t u : DailyTask), t = tasks.get ⟨j, hj⟩ →
      u = (applyCompletion tasks day subTaskIndex completed).1.get ⟨j, hr⟩ →
      (t.day ≠ day → u = t) ∧
      (t.day = day →
        u.day = t.day ∧ u.task = t.task ∧
        u.subTasks.length = ((splitOnChar ';' t.task).map trimString).length ∧
        (∀ i (hi : i < ((splitOnChar ';' t.task).map trimString).length)
           (hsi : i < u.subTasks.length),
           (u.subTasks.get ⟨i, hsi⟩).text
             = ((splitOnChar ';' t.task).map trimString).get ⟨i, hi⟩ ∧
           (u.subTasks.get ⟨i, hsi⟩).completed
             = if i = subTaskIndex then completed
               else ((t.subTasks.get? i).map SubTask.completed).getD false) ∧
        (u.completed = true ↔ ∀ st ∈ u.subTasks, st.completed = true)) := by
  refine ⟨length_applyCompletionList tasks day subTaskIndex completed, ?_⟩
  intro j hj hr t u ht hu
  have hget : (applyCompletion tasks day subTaskIndex completed).1.get ⟨j, hr⟩
      = applyTaskCompletion day subTaskIndex completed (tasks.get ⟨j, hj⟩) :=
    get_applyCompletionList tasks day subTaskIndex completed j hj hr
  subst ht
  subst hu
  rw [hget]
  constructor
  · intro hne
    exact applyTaskCompletion_eq_neg subTaskIndex completed hne
  · intro heq
    rw [applyTaskCompletion_eq_pos subTaskIndex completed heq]
    refine ⟨rfl, rfl, ?_, ?_, ?_⟩
    · exact length_rebuildSubTasks _ _ _ _
    · intro i hi hsi
      rw [get_rebuildSubTasks _ _ _ _ i hsi]
      exact ⟨rfl, rfl⟩
    · exact List.all_eq_true


/-- Witness for C1 at a concrete roadmap: in `[⟨1, "a; b", false, []⟩]`,
completing sub-task 0 of day 1 yields a task with two rebuilt sub-tasks,
as many as segments of the split. -/
theorem applyCompletion_rebuild_spec_witness :
    ((applyCompletion [⟨1, "a; b", false, []⟩] 1 0 true).1.get
        ⟨0, by decide⟩).subTasks.length
      = ((splitOnChar ';' "a; b").map trimString).length :=
  (((applyCompletion_rebuild_spec [⟨1, "a; b", false, []⟩] 1 0 true).2
      0 (by decide) (by decide) _ _ rfl rfl).2 rfl).2.2.1

/-- C9: for every roadmap list and every `day` value that matches no
task's `day` field, `applyCompletion` returns the list unchanged and
yields no "just completed" signal — a lookup miss is a silent no-op. -/
theorem applyCompletion_lookup_miss (tasks : List DailyTask) (day : Int)
    (subTaskIndex : Nat) (completed : Bool)
    (h : ∀ t ∈ tasks, t.day ≠ day) :
    applyCompletion tasks day subTaskIndex completed = (tasks, none) := by
  unfold applyCompletion
  rw [applyCompletionList_no_match tasks day subTaskIndex completed h]
  unfold justCompletedSignal
  rw [foldl_signalStep_no_match day subTaskIndex completed tasks h none]

/-- Witness for C9: day 5 matches nothing in a two-task roadmap. -/
theorem applyCompletion_lookup_miss_witness :
    applyCompletion [⟨1, "a", false, []⟩, ⟨2, "b;c", true, []⟩] 5 0 true
      = ([⟨1, "a", false, []⟩, ⟨2, "b;c", true, []⟩], none) :=
  applyCompletion_lookup_miss [⟨1, "a", false, []⟩, ⟨2, "b;c", true, []⟩]
    5 0 true (by decide)

/-- C4: invoking `applyCompletion` twice with exactly the same arguments
yields the same resulting list both times, and the "just completed"
signal is yielded only when the recomputed completed flag is true and the
task's previous completed flag was false — on the second identical call
(the task now already complete) no signal is yielded. -/
theorem applyCompletion_idempotent (tasks : List DailyTask) (day : Int)
    (subTaskIndex : Nat) (completed : Bool) :
    applyCompletion (applyCompletion tasks day subTaskIndex completed).1
        day subTaskIndex completed
      = ((applyCompletion tasks day subTaskIndex completed).1, none) ∧
    ∀ u, (applyCompletion tasks day subTaskIndex completed).2 = some u →
      u.completed = true ∧
      ∃ t, t ∈ tasks ∧ t.day = day ∧ t.completed = false ∧
        u = applyTaskCompletion day subTaskIndex completed t := by
  constructor
  · have hX : (applyCompletion tasks day subTaskIndex completed).1
        = applyCompletionList tasks day subTaskIndex completed := rfl
    have hl : applyCompletionList
          (applyCompletionList tasks day subTaskIndex completed)
          day subTaskIndex completed
        = applyCompletionList tasks day subTaskIndex completed := by
      unfold applyCompletionList
      rw [List.map_map]
      exact List.map_congr_left
        (fun t _ => applyTaskCompletion_idem day subTaskIndex completed t)
    have hs : justCompletedSignal
          (applyCompletionList tasks day subTaskIndex completed)
          day subTaskIndex completed = none := by
      unfold justCompletedSignal applyCompletionList
      have hfold : ∀ (l : List DailyTask) (acc : Option DailyTask),
          (l.map (applyTaskCompletion day subTaskIndex completed)).foldl
            (signalStep day subTaskIndex completed) acc = acc := by
        intro l
        induction l with
        | nil => intro acc; rfl
        | cons t ts ih =>
          intro acc
          rw [List.map_cons, List.foldl_cons, signalStep_applyTaskCompletion]
          exact ih acc
      exact hfold tasks none
    rw [hX]
    unfold applyCompletion
    rw [hl, hs]
  · intro u hu
    have hu2 : justCompletedSignal tasks day subTaskIndex completed = some u := hu
    rcases justCompletedSignal_foldl_some day subTaskIndex completed tasks none u hu2
      with h | ⟨hcompl, t, ht, hd, hc, hrest⟩
    · exact absurd h (by simp)
    · exact ⟨hcompl, t, ht, hd, hc, hrest⟩

/-- Witness for C4 at a concrete roadmap where completing the only
sub-task of day 1 fires the "just completed" signal. -/
theorem applyCompletion_idempotent_witness :
    (⟨1, "a", true, [⟨"a", true, []⟩]⟩ : DailyTask).completed = true ∧
    ∃ t, t ∈ [(⟨1, "a", false, []⟩ : DailyTask)] ∧ t.day = 1 ∧
      t.completed = false ∧
      (⟨1, "a", true, [⟨"a", true, []⟩]⟩ : DailyTask)
        = applyTaskCompletion 1 0 true t :=
  (applyCompletion_idempotent [⟨1, "a", false, []⟩] 1 0 true).2
    ⟨1, "a", true, [⟨"a", true, []⟩]⟩ (by decide)

/-- C10: `applyCompletion` is total for every `subTaskIndex`, including
out-of-range ones: when `subTaskIndex` is not a valid position of the
`;`-split of the matching task's string, no rebuilt sub-task takes the
new `completed` value — each position keeps its previous completed value,
defaulting to false (with empty `studyLogs`) when no previous sub-task
record exists at that position — and the task's `completed` flag is still
recomputed as the AND of those values. -/
theorem applyCompletion_out_of_range (tasks : List DailyTask) (day : Int)
    (subTaskIndex : Nat) (completed : Bool)
    (j : Nat) (hj : j < tasks.length)
    (hr : j < (applyCompletion tasks day subTaskIndex completed).1.length)
    (hday : (tasks.get ⟨j, hj⟩).day = day)
    (hidx : ((splitOnChar ';' (tasks.get ⟨j, hj⟩).task).map trimString).length
              ≤ subTaskIndex) :
    ∀ u, u = (applyCompletion tasks day subTaskIndex completed).1.get ⟨j, hr⟩ →
      u.subTasks.length
          = ((splitOnChar ';' (tasks.get ⟨j, hj⟩).task).map trimString).length ∧
      (∀ i (hsi : i < u.subTasks.length),
        (u.subTasks.get ⟨i, hsi⟩).completed
            = (((tasks.get ⟨j, hj⟩).subTasks.get? i).map SubTask.completed).getD
                false ∧
        (u.subTasks.get ⟨i, hsi⟩).studyLogs
            = (((tasks.get ⟨j, hj⟩).subTasks.get? i).map SubTask.studyLogs).getD
                []) ∧
      (∀ i, (tasks.get ⟨j, hj⟩).subTasks.length ≤ i →
        ((((tasks.get ⟨j, hj⟩).subTasks.get? i).map SubTask.completed).getD false
            = false ∧
         (((tasks.get ⟨j, hj⟩).subTasks.get? i).map SubTask.studyLogs).getD []
            = [])) ∧
      u.completed = u.subTasks.all SubTask.completed := by
  intro u hu
  have hget : (applyCompletion tasks day subTaskIndex completed).1.get ⟨j, hr⟩
      = applyTaskCompletion day subTaskIndex completed (tasks.get ⟨j, hj⟩) :=
    get_applyCompletionList tasks day subTaskIndex completed j hj hr
  subst hu
  rw [hget, applyTaskCompletion_eq_pos subTaskIndex completed hday]
  refine ⟨length_rebuildSubTasks _ _ _ _, ?_, ?_, rfl⟩
  · intro i hsi
    have hlt : i < (splitSegments (tasks.get ⟨j, hj⟩).task).length := by
      have := hsi
      rwa [length_rebuildSubTasks] at this
    have hsegs : (splitSegments (tasks.get ⟨j, hj⟩).task).length
        = ((splitOnChar ';' (tasks.get ⟨j, hj⟩).task).map trimString).length := rfl
    have hne : i ≠ subTaskIndex := by
      rw [hsegs] at hlt
      omega
    rw [get_rebuildSubTasks _ _ _ _ i hsi]
    exact ⟨by simp [hne], rfl⟩
  · intro i hgei
    rw [List.get?_eq_none.2 hgei]
    exact ⟨rfl, rfl⟩

/-- Witness for C10: index 5 is out of range for the two segments of
`"a;b"`; the rebuilt list still has exactly two sub-tasks. -/
theorem applyCompletion_out_of_range_witness :
    ((applyCompletion [⟨1, "a;b", false, [⟨"a", true, []⟩]⟩] 1 5 true).1.get
        ⟨0, by decide⟩).subTasks.length
      = ((splitOnChar ';' "a;b").map trimString).length :=
  ((applyCompletion_out_of_range [⟨1, "a;b", false, [⟨"a", true, []⟩]⟩] 1 5 true
      0 (by decide) (by decide) (by decide) (by decide)) _ rfl).1

/-- C5: `formatStudyTime` returns null for an absent or empty log list
and also whenever the summed duration is 0; otherwise, decomposing the
total seconds by integer floor division, it returns `"{h}h {m}m logged"`
when hours > 0, else `"{m}m {s}s logged"` when minutes > 0, else
`"{s}s logged"` — exactly one branch, never all three units; in
particular duration 45 gives `"45s logged"`, 125 gives `"2m 5s logged"`,
and 3725 gives `"1h 2m logged"`. -/
theorem formatStudyTime_spec :
    formatStudyTime none = none ∧
    formatStudyTime (some []) = none ∧
    (∀ logs : List StudyLog,
      logs.foldl (fun acc log => acc + log.duration) 0 = 0 →
      formatStudyTime (some logs) = none) ∧
    (∀ (logs : List StudyLog) (T : Nat),
      T = logs.foldl (fun acc log => acc + log.duration) 0 →
      (3600 ≤ T →
        formatStudyTime (some logs)
          = some (toString (T / 3600) ++ "h " ++ toString ((T % 3600) / 60)
              ++ "m logged")) ∧
      (60 ≤ T → T < 3600 →
        formatStudyTime (some logs)
          = some (toString (T / 60) ++ "m " ++ toString (T % 60)
              ++ "s logged")) ∧
      (0 < T → T < 60 →
        formatStudyTime (some logs) = some (toString T ++ "s logged"))) ∧
    formatStudyTime (some [⟨45⟩]) = some "45s logged" ∧
    formatStudyTime (some [⟨125⟩]) = some "2m 5s logged" ∧
    formatStudyTime (some [⟨3725⟩]) = some "1h 2m logged" := by
  refine ⟨rfl, rfl, ?_, ?_, by decide, by decide, by decide⟩
  · intro logs h
    cases logs with
    | nil => rfl
    | cons a l =>
      simp only [formatStudyTime]
      rw [if_neg (by simp), if_pos h]
  · intro logs T hT
    have hlen : ∀ hTpos : 0 < T, logs.length ≠ 0 := by
      intro hTpos h0
      rw [List.length_eq_zero] at h0
      subst h0
      simp at hT
      omega
    refine ⟨?_, ?_, ?_⟩
    · intro h3600
      simp only [formatStudyTime]
      rw [if_neg (hlen (by omega)), ← hT,
          if_neg (show ¬T = 0 by omega),
          if_pos (show T / 3600 > 0 from Nat.div_pos h3600 (by norm_num))]
    · intro h60 hlt
      simp only [formatStudyTime]
      rw [if_neg (hlen (by omega)), ← hT,
          if_neg (show ¬T = 0 by omega)]
      rw [if_neg (show ¬T / 3600 > 0 by
            rw [Nat.div_eq_of_lt hlt]
            omega)]
      rw [if_pos (show (T % 3600) / 60 > 0 by
            rw [Nat.mod_eq_of_lt hlt]
            exact Nat.div_pos h60 (by norm_num))]
      rw [Nat.mod_eq_of_lt hlt]
    · intro hpos hlt
      simp only [formatStudyTime]
      rw [if_neg (hlen hpos), ← hT,
          if_neg (show ¬T = 0 by omega)]
      rw [if_neg (show ¬T / 3600 > 0 by
            rw [Nat.div_eq_of_lt (by omega)]
            omega)]
      rw [if_neg (show ¬(T % 3600) / 60 > 0 by
            rw [Nat.mod_eq_of_lt (by omega), Nat.div_eq_of_lt (by omega)]
            omega)]
      rw [Nat.mod_eq_of_lt hlt]

/-- Witness for C5: two 30-second logs sum to 60 seconds, which reaches
the minutes branch and renders as `"1m 0s logged"`. -/
theorem formatStudyTime_spec_witness :
    formatStudyTime (some [⟨30⟩, ⟨30⟩]) = some (toString (60 / 60) ++ "m "
      ++ toString (60 % 60) ++ "s logged") :=
  ((formatStudyTime_spec.2.2.2.1 [⟨30⟩, ⟨30⟩] 60 (by decide)).2.1
    (by decide) (by decide))

/-- Counterexample to C2 as stated: with now = 2024-01-10T00:00:00
(calendar day 19732 since the epoch) and target 2024-01-12T23:59:59, the
difference is 2 days 23:59:59, whose ceiling in days is 3, so the code
renders "3 days left" — not the "2 days left" the claim asserts for this
scenario. -/
theorem getTimeLeft_claim_counterexample :
    getTimeLeft ⟨19734, 86399000⟩ ⟨19732, 0⟩ = "3 days left" ∧
    getTimeLeft ⟨19734, 86399000⟩ ⟨19732, 0⟩ ≠ "2 days left" := by
  constructor
  · decide
  · decide

/-- C2 (amended): `timeLeft` computes
`days = ceil((targetDate - now) / 86400000)` — the unique integer with
`(days-1)·86400000 < targetDate - now ≤ days·86400000` — and returns
"{days} days left" when days > 1, "1 day left" when days == 1, "Today!"
when days == 0, and "{abs(days)} days overdue" when days < 0; with
now = 2024-01-10T00:00:00, target 2024-01-12T23:59:59 yields
"3 days left" (2 days 23:59:59 rounds up to 3), target
2024-01-10T12:00:00 yields "1 day left" (half a day rounds up to 1), and
target 2024-01-08T00:00:00 yields "2 days overdue". -/
theorem getTimeLeft_spec (target now : Date) :
    ((ceilDiv (target.toMillis - now.toMillis) 86400000 - 1) * 86400000
        < target.toMillis - now.toMillis ∧
     target.toMillis - now.toMillis
        ≤ ceilDiv (target.toMillis - now.toMillis) 86400000 * 86400000) ∧
    (1 < ceilDiv (target.toMillis - now.toMillis) 86400000 →
      getTimeLeft target now
        = toString (ceilDiv (target.toMillis - now.toMillis) 86400000)
            ++ " days left") ∧
    (ceilDiv (target.toMillis - now.toMillis) 86400000 = 1 →
      getTimeLeft target now = "1 day left") ∧
    (ceilDiv (target.toMillis - now.toMillis) 86400000 = 0 →
      getTimeLeft target now = "Today!") ∧
    (ceilDiv (target.toMillis - now.toMillis) 86400000 < 0 →
      getTimeLeft target now
        = toString (ceilDiv (target.toMillis - now.toMillis) 86400000).natAbs
            ++ " days overdue") ∧
    getTimeLeft ⟨19734, 86399000⟩ ⟨19732, 0⟩ = "3 days left" ∧
    getTimeLeft ⟨19732, 43200000⟩ ⟨19732, 0⟩ = "1 day left" ∧
    getTimeLeft ⟨19730, 0⟩ ⟨19732, 0⟩ = "2 days overdue" := by
  refine ⟨?_, ?_, ?_, ?_, ?_, by decide, by decide, by decide⟩
  · unfold ceilDiv
    omega
  · intro h
    unfold getTimeLeft
    rw [if_pos h]
  · intro h
    unfold getTimeLeft
    rw [if_neg (by omega), if_pos h]
  · intro h
    unfold getTimeLeft
    rw [if_neg (by omega), if_neg (by omega), if_pos h]
  · intro h
    unfold getTimeLeft
    rw [if_neg (by omega), if_neg (by omega), if_neg (by omega)]

/-- Witness for C2 (amended): the "1 day left" branch at the concrete
half-day scenario. -/
theorem getTimeLeft_spec_witness :
    getTimeLeft ⟨19732, 43200000⟩ ⟨19732, 0⟩ = "1 day left" :=
  (getTimeLeft_spec ⟨19732, 43200000⟩ ⟨19732, 0⟩).2.2.1 (by decide)

/-- Counterexample to C3 as stated: with a single task of id "a", a
current selection "b" and a delete request for id "b", no task is removed
(nothing has id "b"), so by the claim the selection must be unchanged;
yet the code's `selectedTaskId === taskId` test fires and resets the
selection to the first task's id "a". -/
theorem handleDelete_claim_counterexample :
    handleDelete [⟨"a", "t", ⟨0, 0⟩, ⟨0, 0⟩, "General", Priority.high⟩]
        "b" (some "b")
      = ([⟨"a", "t", ⟨0, 0⟩, ⟨0, 0⟩, "General", Priority.high⟩], some "a") ∧
    (some "a" : Option String) ≠ some "b" := by
  constructor
  · decide
  · decide

/-- C3 (amended): for every task list, deleted id and current selection
that is either null or the id of some task in the list, `deleteMission`
removes exactly the tasks with the matching id; if the deleted id was the
selected one the new selection becomes the first remaining task's id, or
null if the list is now empty; and otherwise the selection is
unchanged. -/
theorem handleDelete_spec (tasks : List Task) (taskId : String)
    (sel : Option String)
    (hsel : sel = none ∨ ∃ t, t ∈ tasks ∧ sel = some t.id) :
    (handleDelete tasks taskId sel).1 = tasks.filter (fun t => t.id ≠ taskId) ∧
    (∀ t, t ∈ (handleDelete tasks taskId sel).1 ↔ (t ∈ tasks ∧ t.id ≠ taskId)) ∧
    (sel = some taskId →
      (handleDelete tasks taskId sel).2
        = ((handleDelete tasks taskId sel).1.head?).map Task.id) ∧
    (sel ≠ some taskId → (handleDelete tasks taskId sel).2 = sel) := by
  have hfst : (handleDelete tasks taskId sel).1
      = tasks.filter (fun t => t.id ≠ taskId) := rfl
  have hsnd : (handleDelete tasks taskId sel).2
      = (if sel = some taskId
            ∧ (tasks.filter (fun t => t.id ≠ taskId)).length > 0 then
           ((tasks.filter (fun t => t.id ≠ taskId)).head?).map Task.id
         else if (tasks.filter (fun t => t.id ≠ taskId)).length = 0 then
           none
         else sel) := rfl
  refine ⟨hfst, ?_, ?_, ?_⟩
  · intro t
    rw [hfst, List.mem_filter]
    simp
  · intro heq
    rw [hsnd, hfst]
    by_cases hlen : (tasks.filter (fun t => t.id ≠ taskId)).length > 0
    · rw [if_pos ⟨heq, hlen⟩]
    · rw [if_neg (fun hc => hlen hc.2), if_pos (by omega)]
      have hnil : tasks.filter (fun t => t.id ≠ taskId) = [] :=
        List.length_eq_zero.mp (by omega)
      rw [hnil]
      rfl
  · intro hne
    rw [hsnd]
    rw [if_neg (fun hc => hne hc.1)]
    by_cases hlen : (tasks.filter (fun t => t.id ≠ taskId)).length = 0
    · rw [if_pos hlen]
      rcases hsel with h1 | ⟨t, ht, hid⟩
      · exact h1.symm
      · exfalso
        have htid : t.id ≠ taskId := by
          intro h
          exact hne (by rw [hid, h])
        have hmem : t ∈ tasks.filter (fun t => t.id ≠ taskId) :=
          List.mem_filter.mpr ⟨ht, by simpa using htid⟩
        rw [List.length_eq_zero.mp hlen] at hmem
        exact absurd hmem (List.not_mem_nil t)
    · rw [if_neg hlen]

/-- Witness for C3 (amended): deleting the selected head of a three-task
list moves the selection to the new first task. -/
theorem handleDelete_spec_witness :
    (handleDelete
        [⟨"a", "t1", ⟨0, 0⟩, ⟨0, 0⟩, "General", Priority.high⟩,
         ⟨"b", "t2", ⟨0, 0⟩, ⟨0, 0⟩, "General", Priority.low⟩,
         ⟨"c", "t3", ⟨0, 0⟩, ⟨0, 0⟩, "General", Priority.medium⟩]
        "a" (some "a")).2 = some "b" := by
  have h := (handleDelete_spec
      [⟨"a", "t1", ⟨0, 0⟩, ⟨0, 0⟩, "General", Priority.high⟩,
       ⟨"b", "t2", ⟨0, 0⟩, ⟨0, 0⟩, "General", Priority.low⟩,
       ⟨"c", "t3", ⟨0, 0⟩, ⟨0, 0⟩, "General", Priority.medium⟩]
      "a" (some "a")
      (Or.inr ⟨⟨"a", "t1", ⟨0, 0⟩, ⟨0, 0⟩, "General", Priority.high⟩,
        by decide, rfl⟩)).2.2.1 rfl
  rw [h]
  decide

/-- Counterexample to C6 as stated: a request with an empty title but a
valid target date is not rejected — `handleSubmit` performs no title
check (the `required` attribute on the form input lives outside the
transform), so it appends a task with an empty title instead of leaving
the list untouched. -/
theorem handleSubmit_empty_title_counterexample :
    handleSubmit [] none
        ⟨DeadlineMode.date, "", some ⟨19800, 0⟩, "Fitness", Priority.low,
         some 30⟩ ⟨19732, 0⟩
      = some [⟨toString (Date.toMillis ⟨19732, 0⟩), "", ⟨19800, 86399999⟩,
              ⟨19732, 0⟩, "Fitness", Priority.low⟩] ∧
    handleSubmit [] none
        ⟨DeadlineMode.date, "", some ⟨19800, 0⟩, "Fitness", Priority.low,
         some 30⟩ ⟨19732, 0⟩
      ≠ none ∧
    handleSubmit [] none
        ⟨DeadlineMode.date, "", some ⟨19800, 0⟩, "Fitness", Priority.low,
         some 30⟩ ⟨19732, 0⟩
      ≠ some [] := by
  refine ⟨rfl, by decide, by decide⟩

/-- C6 (amended): `submitMission` performs no mutation and leaves the
task list untouched when the request is invalid: in date mode when the
target date string is empty, and in days mode when the number of days is
not a number or parses to ≤ 0.  The handler itself performs no title
check: an empty title is accepted and produces a task with an empty
title, title requiredness being enforced by the form input attribute
outside the transform. -/
theorem handleSubmit_invalid_noop (tasks : List Task)
    (editingTask : Option Task) (req : SubmitRequest) (now : Date) :
    (req.deadlineType = DeadlineMode.date → req.targetDate = none →
      handleSubmit tasks editingTask req now = none) ∧
    (req.deadlineType = DeadlineMode.days → req.numberOfDays = none →
      handleSubmit tasks editingTask req now = none) ∧
    (req.deadlineType = DeadlineMode.days →
      ∀ n, req.numberOfDays = some n → n ≤ 0 →
      handleSubmit tasks editingTask req now = none) := by
  refine ⟨?_, ?_, ?_⟩
  · intro h1 h2
    unfold handleSubmit resolveTargetDate
    rw [h1, h2]
  · intro h1 h2
    unfold handleSubmit resolveTargetDate
    rw [h1, h2]
  · intro h1 n h2 h3
    unfold handleSubmit resolveTargetDate
    rw [h1, h2]
    dsimp only
    rw [if_pos h3]

/-- Witness for C6 (amended): an empty date string in date mode is a
no-op, and zero days in days mode is a no-op. -/
theorem handleSubmit_invalid_noop_witness :
    handleSubmit [] none
        ⟨DeadlineMode.date, "t", none, "", Priority.high, some 3⟩ ⟨0, 0⟩
      = none ∧
    handleSubmit [] none
        ⟨DeadlineMode.days, "t", none, "", Priority.high, some 0⟩ ⟨0, 0⟩
      = none :=
  ⟨(handleSubmit_invalid_noop [] none
      ⟨DeadlineMode.date, "t", none, "", Priority.high, some 3⟩ ⟨0, 0⟩).1
      rfl rfl,
   (handleSubmit_invalid_noop [] none
      ⟨DeadlineMode.days, "t", none, "", Priority.high, some 0⟩ ⟨0, 0⟩).2.2
      rfl 0 rfl (by omega)⟩

/-- C7: on a valid `submitMission` request with no `editingId`, the
returned list is the input list with one new MissionTask appended at the
end, whose `startDate` is the injected now, whose `category` is
`"General"` when the requested category is blank, and whose `targetDate`
— in both date mode and days mode — has its time-of-day forced to
23:59:59.999 of the computed calendar day. -/
theorem handleSubmit_append (tasks : List Task) (req : SubmitRequest)
    (now : Date) :
    (req.deadlineType = DeadlineMode.date → ∀ d, req.targetDate = some d →
      handleSubmit tasks none req now = some (tasks ++
        [{ id := toString now.toMillis
           title := req.title
           targetDate := ⟨d.day, 86399999⟩
           startDate := now
           category := if req.category = "" then "General" else req.category
           priority := req.priority }])) ∧
    (req.deadlineType = DeadlineMode.days →
      ∀ n, req.numberOfDays = some n → 0 < n →
      handleSubmit tasks none req now = some (tasks ++
        [{ id := toString now.toMillis
           title := req.title
           targetDate := ⟨now.day + n, 86399999⟩
           startDate := now
           category := if req.category = "" then "General" else req.category
           priority := req.priority }])) := by
  constructor
  · intro h1 d h2
    unfold handleSubmit resolveTargetDate
    rw [h1, h2]
    rfl
  · intro h1 n h2 h3
    unfold handleSubmit resolveTargetDate
    rw [h1, h2]
    dsimp only
    rw [if_neg (show ¬n ≤ 0 by omega)]
    rfl

/-- Witness for C7: a valid date-mode request with blank category is
appended to the empty list with `startDate = now`, category "General"
and an end-of-day target. -/
theorem handleSubmit_append_witness :
    handleSubmit [] none
        ⟨DeadlineMode.date, "t", some ⟨19800, 0⟩, "", Priority.high, none⟩
        ⟨19732, 0⟩
      = some ([] ++
        [{ id := toString (Date.toMillis ⟨19732, 0⟩)
           title := "t"
           targetDate := ⟨19800, 86399999⟩
           startDate := ⟨19732, 0⟩
           category := if "" = "" then "General" else ""
           priority := Priority.high }]) :=
  (handleSubmit_append []
      ⟨DeadlineMode.date, "t", some ⟨19800, 0⟩, "", Priority.high, none⟩
      ⟨19732, 0⟩).1 rfl ⟨19800, 0⟩ rfl

/-- C8: on a valid `submitMission` request with an `editingId`, the task
whose id matches is replaced by a record with the same id and the same
`startDate` but the new `title`, `targetDate`, `category` and `priority`,
and every task whose id does not match passes through unchanged.  The
hypothesis `huniq` is the data-model invariant that ids are unique, so
the edit request's captured task is the list's task of that id. -/
theorem handleSubmit_edit_spec (tasks : List Task) (e : Task)
    (req : SubmitRequest) (now : Date) (tdv : Date)
    (hres : resolveTargetDate req now = some tdv)
    (huniq : ∀ j (hj : j < tasks.length),
      (tasks.get ⟨j, hj⟩).id = e.id → tasks.get ⟨j, hj⟩ = e) :
    handleSubmit tasks (some e) req now ≠ none ∧
    ∀ l, handleSubmit tasks (some e) req now = some l →
      l.length = tasks.length ∧
      ∀ j (hj : j < tasks.length) (hl : j < l.length),
        ((tasks.get ⟨j, hj⟩).id ≠ e.id → l.get ⟨j, hl⟩ = tasks.get ⟨j, hj⟩) ∧
        ((tasks.get ⟨j, hj⟩).id = e.id →
          (l.get ⟨j, hl⟩).id = (tasks.get ⟨j, hj⟩).id ∧
          (l.get ⟨j, hl⟩).startDate = (tasks.get ⟨j, hj⟩).startDate ∧
          (l.get ⟨j, hl⟩).title = req.title ∧
          (l.get ⟨j, hl⟩).targetDate = setEndOfDay tdv ∧
          (l.get ⟨j, hl⟩).category
            = (if req.category = "" then "General" else req.category) ∧
          (l.get ⟨j, hl⟩).priority = req.priority) := by
  have heq : handleSubmit tasks (some e) req now
      = some (tasks.map fun t =>
          if t.id = e.id then
            { id := e.id
              title := req.title
              targetDate := setEndOfDay tdv
              startDate := e.startDate
              category := if req.category = "" then "General" else req.category
              priority := req.priority }
          else t) := by
    unfold handleSubmit
    rw [hres]
  constructor
  · rw [heq]
    simp
  · intro l hsub
    rw [heq] at hsub
    have hl : l = tasks.map fun t =>
        if t.id = e.id then
          { id := e.id
            title := req.title
            targetDate := setEndOfDay tdv
            startDate := e.startDate
            category := if req.category = "" then "General" else req.category
            priority := req.priority }
        else t := (Option.some_inj.mp hsub).symm
    subst hl
    refine ⟨by simp, ?_⟩
    intro j hj hl
    constructor
    · intro hne
      simp only [List.get_eq_getElem] at hne ⊢
      simp only [List.getElem_map]
      rw [if_neg hne]
    · intro hid
      have he : tasks.get ⟨j, hj⟩ = e := huniq j hj hid
      simp only [List.get_eq_getElem] at hid he ⊢
      simp only [List.getElem_map]
      rw [if_pos hid]
      exact ⟨by rw [hid], by rw [he], rfl, rfl, rfl, rfl⟩

/-- Witness for C8 at a concrete one-task list: editing the task of id
"x" keeps the list one element long. -/
theorem handleSubmit_edit_spec_witness :
    ([⟨"x", "new", ⟨20, 86399999⟩, ⟨3, 7⟩, "General", Priority.extreme⟩]
        : List Task).length
      = ([⟨"x", "old", ⟨10, 5⟩, ⟨3, 7⟩, "Cat", Priority.low⟩]
        : List Task).length :=
  ((handleSubmit_edit_spec
      [⟨"x", "old", ⟨10, 5⟩, ⟨3, 7⟩, "Cat", Priority.low⟩]
      ⟨"x", "old", ⟨10, 5⟩, ⟨3, 7⟩, "Cat", Priority.low⟩
      ⟨DeadlineMode.date, "new", some ⟨20, 0⟩, "", Priority.extreme, none⟩
      ⟨19732, 0⟩ ⟨20, 0⟩ rfl
      (by
        intro j hj hid
        match j, hj with
        | 0, _ => rfl)).2
    [⟨"x", "new", ⟨20, 86399999⟩, ⟨3, 7⟩, "General", Priority.extreme⟩]
    (by decide)).1

end UnlockDrive
